import Mathlib

/-!
Verification of the BoxChronicle monitoring server (`src/unnamed/part_001`,
an Express app) and of the forwarding-cycle cursor core described by the
spec.  The server is embedded shallowly: JavaScript strings become
`List Char`, the mutable `state` object becomes the `ServerState`
structure, the filesystem observations made by `updateStatsFromLogs`
become the `FS` structure, and each route handler becomes a pure function
from state (plus its inputs) to state and response.
-/

namespace BoxChronicle

/-! ### JavaScript string operations, over `List Char` -/

/-- Whether `l` starts with `pat` (used to model regex/substring
matching position by position). -/
def leadsWith : List Char → List Char → Bool
  | [], _ => true
  | _ :: _, [] => false
  | p :: ps, c :: cs => p = c && leadsWith ps cs

/-- Models JavaScript `l.includes(pat)`: whether `pat` occurs in `l`. -/
def containsSeq (pat : List Char) : List Char → Bool
  | [] => leadsWith pat []
  | c :: cs => leadsWith pat (c :: cs) || containsSeq pat cs

/-- Models JavaScript `content.split('\n')`: split into lines, keeping
empty segments, so the empty string yields one empty line. -/
def splitLines : List Char → List (List Char)
  | [] => [[]]
  | c :: cs =>
    let r := splitLines cs
    if c = '\n' then [] :: r
    else
      match r with
      | [] => [[c]]
      | l :: ls => (c :: l) :: ls

/-- The maximal leading run of decimal digits, with the rest of the list. -/
def digitSpan : List Char → List Char × List Char
  | [] => ([], [])
  | c :: cs =>
    if c.isDigit then
      let p := digitSpan cs
      (c :: p.1, p.2)
    else ([], c :: cs)

/-- Decimal value of a digit string; models `parseInt` on the capture of
`/processed (\d+) events/` (capture groups are all-digit, so no sign or
radix subtleties arise). -/
def natOfDigits (ds : List Char) : Nat :=
  ds.foldl (fun n c => 10 * n + (c.toNat - 48)) 0

/-- Attempt to match `processed (\d+) events` anchored at the head of `l`,
returning the captured digit characters. -/
def matchCountAt (l : List Char) : Option (List Char) :=
  if leadsWith "processed ".toList l then
    let rest := l.drop ("processed ".toList).length
    let p := digitSpan rest
    if p.1 ≠ [] && leadsWith " events".toList p.2 then some p.1 else none
  else none

/-- First match of `/processed (\d+) events/` anywhere in the line
(JavaScript `line.match(...)`): scan left to right for the first position
where the pattern matches.  A greedy `\d+` followed by a non-digit literal
never succeeds by backtracking, so taking the maximal digit run at each
position is faithful. -/
def findCount : List Char → Option (List Char)
  | [] => matchCountAt []
  | c :: cs =>
    match matchCountAt (c :: cs) with
    | some d => some d
    | none => findCount cs

/-- Event count parsed from a line, `0` when the pattern does not match:
models `(match ? parseInt(match[1]) : 0)`. -/
def lineCount (l : List Char) : Nat :=
  match findCount l with
  | some d => natOfDigits d
  | none => 0

/-- Shape test for the timestamp regex: in the pattern, `N` stands for a
digit and every other character for itself. -/
def shapeMatch : List Char → List Char → Bool
  | [], _ => true
  | _ :: _, [] => false
  | p :: ps, c :: cs =>
    (if p = 'N' then c.isDigit else decide (c = p)) && shapeMatch ps cs

/-- Models `line.match(/^(\d{4}-\d{2}-\d{2} \d{2}:\d{2}:\d{2})/)?.[1]`:
the first 19 characters when they have the timestamp shape. -/
def matchTimestamp (l : List Char) : Option (List Char) :=
  if shapeMatch "NNNN-NN-NN NN:NN:NN".toList l then some (l.take 19) else none

/-! ### Server state (`state` object, `src/unnamed/part_001` lines 14-24) -/

structure Stats where
  totalEvents : Nat
  eventsToday : Nat
  lastBatchSize : Nat
  deriving Repr, DecidableEq

/-- One entry of `state.recentActivity` as built at lines 62-71. -/
structure Activity where
  timestamp : Option String
  type : String
  status : String
  details : String
  deriving Repr, DecidableEq

structure ServerState where
  lastRun : Option String
  nextRun : Option String
  isRunning : Bool
  stats : Stats
  recentActivity : List Activity
  deriving Repr, DecidableEq

/-- The initial `state` literal. -/
def initialState : ServerState :=
  { lastRun := none
    nextRun := none
    isRunning := false
    stats := { totalEvents := 0, eventsToday := 0, lastBatchSize := 0 }
    recentActivity := [] }

/-- What `updateStatsFromLogs` observes of the filesystem: whether the
`logs` directory exists, whether today's `boxchronicle_<date>.log` exists,
and that file's content. -/
structure FS where
  logDirExists : Bool
  logFileExists : Bool
  logContent : List Char

/-! ### `updateStatsFromLogs` (lines 27-75) -/

/-- Lines of the log containing `'Successfully processed'`. -/
def eventLinesOf (content : List Char) : List (List Char) :=
  (splitLines content).filter
    (fun line => containsSeq "Successfully processed".toList line)

/-- The `details` field of an activity entry: the template
`Processed ${eventCount} events`, with JavaScript's `undefined` rendering
when the count pattern did not match. -/
def activityDetails (line : List Char) : String :=
  "Processed " ++
    (match findCount line with
     | some d => String.mk d
     | none => "undefined") ++ " events"

/-- One `recentActivity` entry built from a log line.  `isoOf` abstracts
`ts => new Date(ts).toISOString()`: it yields `none` when `new Date`
produces an Invalid Date (possible for timestamps that match the shape
regex but carry out-of-range calendar fields) and `toISOString` therefore
throws a RangeError; `mkActivity` returning `none` models that throw
escaping the map callback.  A line without a timestamp match never calls
the conversion and gets a `null` timestamp. -/
def mkActivity (isoOf : List Char → Option String) (line : List Char) :
    Option Activity :=
  match matchTimestamp line with
  | some ts =>
    (isoOf ts).map (fun iso =>
      { timestamp := some iso
        type := "Event Processing"
        status := "SUCCESS"
        details := activityDetails line })
  | none =>
    some { timestamp := none
           type := "Event Processing"
           status := "SUCCESS"
           details := activityDetails line }

/-- Models JavaScript `.map(cb)` under a callback that may throw: the
first `none` aborts the whole map and the exception propagates to the
enclosing try/catch. -/
def mapThrow {α β : Type} (f : α → Option β) : List α → Option (List β)
  | [] => some []
  | x :: xs =>
    match f x with
    | none => none
    | some b => (mapThrow f xs).map (fun bs => b :: bs)

/-- JavaScript `slice(-10)`: the last (at most) `n` elements. -/
def lastN (n : Nat) (l : List α) : List α :=
  l.drop (l.length - n)

/-- The body of `updateStatsFromLogs` (lines 27-75): early return when the
log directory or today's log file is missing; otherwise assign
`stats.totalEvents`, `stats.eventsToday` and `stats.lastBatchSize` (the
last kept when there is no event line), then rebuild `recentActivity`
from the last 10 matching lines.  When the timestamp conversion inside
the map throws (`mapThrow` yields `none`), the exception is caught at
lines 72-74 after the three stats assignments have already happened, so
the stats keep their new values while `recentActivity` keeps its
previous one.  `today` is the date string
`new Date().toISOString().split('T')[0]`. -/
def updateStatsFromLogs (today : List Char)
    (isoOf : List Char → Option String) (fs : FS) (s : ServerState) :
    ServerState :=
  if !fs.logDirExists then s
  else if !fs.logFileExists then s
  else
    let lines := splitLines fs.logContent
    let eventLines := lines.filter
      (fun line => containsSeq "Successfully processed".toList line)
    let totalEvents := (eventLines.map lineCount).sum
    let todayLines := eventLines.filter (fun line => containsSeq today line)
    let eventsToday := (todayLines.map lineCount).sum
    let lastBatchSize :=
      match eventLines.getLast? with
      | some lastLine => lineCount lastLine
      | none => s.stats.lastBatchSize
    let newStats : Stats :=
      { totalEvents := totalEvents
        eventsToday := eventsToday
        lastBatchSize := lastBatchSize }
    let newActivity :=
      match mapThrow (mkActivity isoOf) (lastN 10 eventLines) with
      | some acts => acts.filter (fun a => a.timestamp.isSome)
      | none => s.recentActivity
    { s with stats := newStats, recentActivity := newActivity }

/-! ### `GET /api/status` (lines 78-88) -/

/-- The JSON body sent by the status route. -/
structure StatusResponse where
  status : String
  lastRun : Option String
  nextRun : Option String
  isRunning : Bool
  stats : Stats
  recentActivity : List Activity
  deriving Repr, DecidableEq

/-- The status handler: refresh stats from the logs, then serialize the
state.  Returns the state left behind together with the response. -/
def statusHandler (today : List Char) (isoOf : List Char → Option String)
    (fs : FS) (s : ServerState) : ServerState × StatusResponse :=
  let s1 := updateStatsFromLogs today isoOf fs s
  (s1,
    { status := if s1.isRunning then "ACTIVE" else "IDLE"
      lastRun := s1.lastRun
      nextRun := s1.nextRun
      isRunning := s1.isRunning
      stats := s1.stats
      recentActivity := s1.recentActivity })

/-! ### `POST /api/run` (lines 90-122) -/

/-- The JSON body sent by the run route; the code only ever sends a
`success` flag and a human-readable `message`. -/
structure RunReply where
  httpStatus : Nat
  success : Bool
  message : String
  deriving Repr, DecidableEq

/-- How the synchronous part of the handler can go: `spawn` returns a
child handle, or throws (caught at lines 117-121). -/
inductive SpawnOutcome where
  | ok
  | syncError
  deriving Repr, DecidableEq

/-- Result of one invocation of the run handler: the state when the
response is sent, the response, and whether a worker process was
spawned. -/
structure RunResult where
  state : ServerState
  reply : RunReply
  spawned : Bool
  deriving Repr, DecidableEq

/-- Lines 90-122: reject when `state.isRunning`; otherwise set the flag
and `lastRun`, spawn the worker and acknowledge, or on a synchronous
throw clear the flag and answer 500.  `now` is `new Date().toISOString()`
at the time of the request. -/
def runHandler (s : ServerState) (outcome : SpawnOutcome) (now : String) :
    RunResult :=
  if s.isRunning then
    { state := s
      reply := { httpStatus := 400, success := false
                 message := "Integration is already running" }
      spawned := false }
  else
    match outcome with
    | .ok =>
      { state := { s with isRunning := true, lastRun := some now }
        reply := { httpStatus := 200, success := true
                   message := "Integration started" }
        spawned := true }
    | .syncError =>
      { state := { s with isRunning := false, lastRun := some now }
        reply := { httpStatus := 500, success := false
                   message := "Failed to start integration" }
        spawned := false }

/-- Lines 110-114, the worker's `close` listener: clear the running flag
and schedule the next run, whatever exit code (or spawn-failure `none`)
the worker reports. -/
def closeHandler (code : Option Int) (next5 : String) (s : ServerState) :
    ServerState :=
  let _ := code
  { s with isRunning := false, nextRun := some next5 }

/-- The ways one accepted run request can end: the synchronous throw, or
the worker's `close` event (normal exit, failure exit, or spawn fault
reported as `close` with a `none` code). -/
inductive CycleEnd where
  | syncError
  | workerClose (code : Option Int)
  deriving Repr, DecidableEq

/-- The state after an accepted run request has fully ended, on each
possible path. -/
def runToEnd (s : ServerState) (e : CycleEnd) (now next5 : String) :
    ServerState :=
  match e with
  | .syncError => (runHandler s .syncError now).state
  | .workerClose code => closeHandler code next5 (runHandler s .ok now).state

/-! ### Forwarding-cycle cursor core -/

/-- Modelled from the spec: the Python forwarding-cycle core (`main.py`,
spawned by the server but absent from the repository snapshot) delivers
batches in order and, per §4.4, advances the cursor to "the cursor
corresponding to the last contiguous successfully-delivered batch".
A batch here is summarized by its end cursor and whether the sink
confirmed its delivery.  Cursors are modelled as naturals, a totally
ordered token type as §3 requires. -/
structure BatchResult where
  endCursor : Nat
  delivered : Bool
  deriving Repr, DecidableEq

/-- Modelled from the spec: §4.4 cursor-advancement rule.  Walk the
batches in delivery order; each confirmed batch moves the cursor to its
end cursor, and the first unconfirmed batch stops the advance (later
batches, delivered or not, never move the cursor past the failure). -/
def advanceCursor (cur : Nat) : List BatchResult → Nat
  | [] => cur
  | b :: bs => if b.delivered then advanceCursor b.endCursor bs else cur

/-- Modelled from the spec: one cycle loads the stored cursor, delivers
its batches, and persists the advanced cursor (§2 control flow); the
persisted value after the cycle is `advanceCursor` of the loaded one. -/
def runCycleCursor (stored : Nat) (batches : List BatchResult) : Nat :=
  advanceCursor stored batches

/-- Modelled from the spec: the cursor persisted after a sequence of
cycles, each cycle re-loading the value the previous one persisted
(§5: the Controller re-loads at the start of every cycle). -/
def runCycles (cur : Nat) : List (List BatchResult) → Nat
  | [] => cur
  | cy :: rest => runCycles (runCycleCursor cur cy) rest

/-- Modelled from the spec: the source contract (§4.2) returns events in
increasing cursor order starting after the loaded cursor, so within each
cycle the loaded cursor and the batch end cursors form a `≤`-chain; the
predicate threads that through a sequence of cycles. -/
def GoodCycles (cur : Nat) : List (List BatchResult) → Prop
  | [] => True
  | cy :: rest =>
    List.Chain (fun a b => a ≤ b) cur (cy.map BatchResult.endCursor) ∧
      GoodCycles (runCycleCursor cur cy) rest

/-- Modelled from the spec: the stored-cursor values observed before,
between and after a sequence of cycles. -/
def cursorTrace (cur : Nat) : List (List BatchResult) → List Nat
  | [] => [cur]
  | cy :: rest => cur :: cursorTrace (runCycleCursor cur cy) rest

/-! ### Helper lemmas -/

theorem cursorTrace_head (cur : Nat) (cycles : List (List BatchResult)) :
    (cursorTrace cur cycles).head? = some cur := by
  cases cycles <;> rfl

theorem advanceCursor_ge (cur : Nat) (bs : List BatchResult)
    (h : List.Chain (fun a b => a ≤ b) cur (bs.map BatchResult.endCursor)) :
    cur ≤ advanceCursor cur bs := by
  induction bs generalizing cur with
  | nil => exact Nat.le_refl cur
  | cons b bs ih =>
    rw [List.map_cons, List.chain_cons] at h
    by_cases hb : b.delivered = true
    · calc cur ≤ b.endCursor := h.1
        _ ≤ advanceCursor b.endCursor bs := ih b.endCursor h.2
        _ = advanceCursor cur (b :: bs) := by simp [advanceCursor, hb]
    · simp [advanceCursor, hb]

theorem advanceCursor_sourced (cur : Nat) (bs : List BatchResult) :
    advanceCursor cur bs = cur ∨
      ∃ b ∈ bs, b.delivered = true ∧ advanceCursor cur bs = b.endCursor := by
  induction bs generalizing cur with
  | nil => exact Or.inl rfl
  | cons b bs ih =>
    by_cases hb : b.delivered = true
    · rcases ih b.endCursor with h | ⟨b', hmem, hdel, he⟩
      · exact Or.inr ⟨b, List.mem_cons_self b bs, hb,
          by simp [advanceCursor, hb, h]⟩
      · exact Or.inr ⟨b', List.mem_cons_of_mem b hmem, hdel,
          by simp [advanceCursor, hb, he]⟩
    · exact Or.inl (by simp [advanceCursor, hb])

theorem cursorTrace_chain (cur : Nat) (cycles : List (List BatchResult))
    (h : GoodCycles cur cycles) :
    List.Chain' (fun a b => a ≤ b) (cursorTrace cur cycles) := by
  induction cycles generalizing cur with
  | nil => simp [cursorTrace]
  | cons cy rest ih =>
    obtain ⟨hc, hrest⟩ := h
    rw [cursorTrace, List.chain'_cons']
    refine ⟨?_, ih _ hrest⟩
    intro y hy
    rw [cursorTrace_head] at hy
    cases hy
    exact advanceCursor_ge cur cy hc

theorem updateStatsFromLogs_frame (today : List Char)
    (isoOf : List Char → Option String) (fs : FS) (s : ServerState) :
    (updateStatsFromLogs today isoOf fs s).lastRun = s.lastRun ∧
    (updateStatsFromLogs today isoOf fs s).nextRun = s.nextRun ∧
    (updateStatsFromLogs today isoOf fs s).isRunning = s.isRunning := by
  unfold updateStatsFromLogs
  split
  · exact ⟨rfl, rfl, rfl⟩
  · split
    · exact ⟨rfl, rfl, rfl⟩
    · exact ⟨rfl, rfl, rfl⟩

/-! ### Claims -/

/-- C1: a `POST /api/run` received while a cycle is in progress
(`state.isRunning` set) is answered with the HTTP 400 already-running
rejection, spawns no second worker, and leaves the controller state
exactly as it was; it is rejected, not queued. -/
theorem run_while_running_rejected (s : ServerState) (o : SpawnOutcome)
    (now : String) (h : s.isRunning = true) :
    runHandler s o now =
      { state := s
        reply := { httpStatus := 400, success := false
                   message := "Integration is already running" }
        spawned := false } := by
  simp [runHandler, h]

theorem run_while_running_rejected_witness :
    ({ initialState with isRunning := true } : ServerState).isRunning = true ∧
    runHandler { initialState with isRunning := true } SpawnOutcome.ok "t" =
      { state := { initialState with isRunning := true }
        reply := { httpStatus := 400, success := false
                   message := "Integration is already running" }
        spawned := false } :=
  ⟨rfl, run_while_running_rejected { initialState with isRunning := true }
    SpawnOutcome.ok "t" rfl⟩

/-- C2: when batch `b1` is confirmed delivered and the immediately
following batch `b2` fails, the cursor persisted at the end of the cycle
is exactly `b1`'s end cursor, whatever happens with the batches after
`b2`; in particular it is never `b2`'s cursor nor any cursor beyond
`b1`'s. -/
theorem cursor_stops_at_first_failure (cur : Nat) (b1 b2 : BatchResult)
    (rest : List BatchResult) (h1 : b1.delivered = true)
    (h2 : b2.delivered = false) :
    runCycleCursor cur (b1 :: b2 :: rest) = b1.endCursor ∧
    ∀ c, b1.endCursor < c → runCycleCursor cur (b1 :: b2 :: rest) ≠ c := by
  have he : runCycleCursor cur (b1 :: b2 :: rest) = b1.endCursor := by
    simp [runCycleCursor, advanceCursor, h1, h2]
  exact ⟨he, fun c hc => by rw [he]; exact Nat.ne_of_lt hc⟩

theorem cursor_stops_at_first_failure_witness :
    (⟨5, true⟩ : BatchResult).delivered = true ∧
    (⟨9, false⟩ : BatchResult).delivered = false ∧
    (runCycleCursor 2 [⟨5, true⟩, ⟨9, false⟩, ⟨12, true⟩] = 5 ∧
      ∀ c, 5 < c → runCycleCursor 2 [⟨5, true⟩, ⟨9, false⟩, ⟨12, true⟩] ≠ c) :=
  ⟨rfl, rfl, cursor_stops_at_first_failure 2 ⟨5, true⟩ ⟨9, false⟩
    [⟨12, true⟩] rfl rfl⟩

/-- C6: whenever a run request is accepted (the flag was clear), the flag
is set before the worker is spawned, and on every way the cycle can end —
a synchronous throw while starting, or the worker's `close` event after a
normal exit, a failure exit, or a spawn fault (reported as `close` with a
`none` code) — the flag is clear again, so it can never remain set after
the cycle has ended. -/
theorem running_flag_lifecycle (s : ServerState) (e : CycleEnd)
    (now next5 : String) (h : s.isRunning = false) :
    (runHandler s SpawnOutcome.ok now).state.isRunning = true ∧
    (runToEnd s e now next5).isRunning = false := by
  cases e <;> simp [runToEnd, runHandler, closeHandler, h]

theorem running_flag_lifecycle_witness :
    initialState.isRunning = false ∧
    ((runHandler initialState SpawnOutcome.ok "t").state.isRunning = true ∧
      (runToEnd initialState (CycleEnd.workerClose (some 1)) "t" "u").isRunning
        = false) :=
  ⟨rfl, running_flag_lifecycle initialState (CycleEnd.workerClose (some 1))
    "t" "u" rfl⟩

/-- C3: across any sequence of cycles whose fetches respect the source
contract (batch end cursors form a `≤`-chain from the loaded cursor), the
successive persisted cursor values are pairwise non-decreasing — after
every cycle the stored value is at least the value stored before it — and
each cycle persists either the unchanged loaded cursor or the end cursor
of a batch the sink confirmed delivered. -/
theorem cursor_monotone (cur : Nat) (cycles : List (List BatchResult))
    (h : GoodCycles cur cycles) :
    List.Pairwise (fun a b => a ≤ b) (cursorTrace cur cycles) ∧
    ∀ c : Nat, ∀ cy : List BatchResult,
      runCycleCursor c cy = c ∨
        ∃ b ∈ cy, b.delivered = true ∧ runCycleCursor c cy = b.endCursor := by
  constructor
  · exact List.chain'_iff_pairwise.mp (cursorTrace_chain cur cycles h)
  · intro c cy
    exact advanceCursor_sourced c cy

theorem cursor_monotone_witness :
    GoodCycles 0 [[⟨3, true⟩], [⟨5, true⟩, ⟨9, false⟩], [⟨7, true⟩]] ∧
    (List.Pairwise (fun a b => a ≤ b)
        (cursorTrace 0 [[⟨3, true⟩], [⟨5, true⟩, ⟨9, false⟩], [⟨7, true⟩]]) ∧
      ∀ c : Nat, ∀ cy : List BatchResult,
        runCycleCursor c cy = c ∨
          ∃ b ∈ cy, b.delivered = true ∧ runCycleCursor c cy = b.endCursor) :=
  have hg : GoodCycles 0 [[⟨3, true⟩], [⟨5, true⟩, ⟨9, false⟩], [⟨7, true⟩]] := by
    refine ⟨?_, ?_, ?_, trivial⟩ <;>
      norm_num [runCycleCursor, advanceCursor, List.chain_cons]
  ⟨hg, cursor_monotone 0 [[⟨3, true⟩], [⟨5, true⟩, ⟨9, false⟩], [⟨7, true⟩]] hg⟩

/-- C4 counterexample: an accepted run request is answered with the fixed
acknowledgement `{success: true, message: 'Integration started'}` — a
value carrying no fetched/delivered/failed counts, no errors and no
cursor — and the answer is sent while `isRunning` is still `true`, i.e.
before the cycle has completed, so it cannot be a report of the completed
cycle. -/
theorem run_returns_ack_not_report_cex :
    (runHandler initialState SpawnOutcome.ok "2024-01-01T00:00:00Z").reply =
      { httpStatus := 200, success := true, message := "Integration started" } ∧
    (runHandler initialState SpawnOutcome.ok "2024-01-01T00:00:00Z").state.isRunning
      = true := by
  exact ⟨rfl, rfl⟩

/-- C4 amended: every accepted run request is answered immediately with
the constant acknowledgement that the integration was started (HTTP 200,
`success: true`), emitted while the spawned cycle is still running; no
structured report of the completed cycle is returned to the caller. -/
theorem run_returns_ack (s : ServerState) (now : String)
    (h : s.isRunning = false) :
    (runHandler s SpawnOutcome.ok now).reply =
      { httpStatus := 200, success := true, message := "Integration started" } ∧
    (runHandler s SpawnOutcome.ok now).state.isRunning = true := by
  simp [runHandler, h]

theorem run_returns_ack_witness :
    initialState.isRunning = false ∧
    ((runHandler initialState SpawnOutcome.ok "t").reply =
      { httpStatus := 200, success := true, message := "Integration started" } ∧
      (runHandler initialState SpawnOutcome.ok "t").state.isRunning = true) :=
  ⟨rfl, run_returns_ack initialState "t" rfl⟩

/-- Concrete log content used to exhibit the status route's writes: two
successfully-processed lines and one error line, as the Python worker
writes them. -/
def sampleLog : List Char :=
  ("2024-01-01 10:00:00 INFO Successfully processed 3 events\n" ++
    "2024-01-01 10:05:00 ERROR delivery failed: HTTP 500\n" ++
    "2024-01-01 10:10:00 INFO Successfully processed 7 events").toList

/-- A concrete stand-in for `ts => new Date(ts).toISOString()` on
`YYYY-MM-DD HH:MM:SS` inputs: an out-of-range month makes `new Date`
return an Invalid Date, whose `toISOString` throws (modelled `none`);
otherwise the conversion completes with a definite string. -/
def isoJs (ts : List Char) : Option String :=
  if 1 ≤ natOfDigits ((ts.drop 5).take 2) &&
      natOfDigits ((ts.drop 5).take 2) ≤ 12 then
    some (String.mk ts ++ "Z")
  else none

/-- C5 counterexample: with today's log file present, `GET /api/status`
is not read-only — on the initial state and a log holding two processed
batches, handling the request rewrites `state.stats` (and
`state.recentActivity`), so a component of the controller state changes. -/
theorem status_modifies_state_cex :
    (statusHandler "2024-01-01".toList isoJs ⟨true, true, sampleLog⟩
        initialState).1.stats ≠ initialState.stats ∧
    (statusHandler "2024-01-01".toList isoJs ⟨true, true, sampleLog⟩
        initialState).1.stats =
      { totalEvents := 10, eventsToday := 10, lastBatchSize := 7 } := by
  exact ⟨by decide, by decide⟩

/-- C5 amended: the status route never blocks on or alters the run
bookkeeping — `lastRun`, `nextRun` and `isRunning` are returned exactly as
stored and left unchanged — but before answering it refreshes
`state.stats` and `state.recentActivity` from today's log file, so those
two components may be rewritten by a status query. -/
theorem status_frame (today : List Char) (isoOf : List Char → Option String)
    (fs : FS) (s : ServerState) :
    (statusHandler today isoOf fs s).1.lastRun = s.lastRun ∧
    (statusHandler today isoOf fs s).1.nextRun = s.nextRun ∧
    (statusHandler today isoOf fs s).1.isRunning = s.isRunning ∧
    (statusHandler today isoOf fs s).2.lastRun = s.lastRun ∧
    (statusHandler today isoOf fs s).2.nextRun = s.nextRun ∧
    (statusHandler today isoOf fs s).2.isRunning = s.isRunning ∧
    (statusHandler today isoOf fs s).2.status =
      (if s.isRunning then "ACTIVE" else "IDLE") := by
  obtain ⟨h1, h2, h3⟩ := updateStatsFromLogs_frame today isoOf fs s
  refine ⟨h1, h2, h3, h1, h2, h3, ?_⟩
  show (if (updateStatsFromLogs today isoOf fs s).isRunning then "ACTIVE"
    else "IDLE") = _
  rw [h3]

/-- C7: evaluating the server at a log that records a delivery error
(`sampleLog`'s ERROR line): the user-visible status response lists only
the two SUCCESS entries — no trace of the error survives into
`recentActivity` — and the run route's accepted reply is the constant
acknowledgement, so neither surface can carry an error; worker stderr and
the catch at lines 72-74 go to `console.error` only.  The repository's own
playbook promises "a success or error indicator" per attempt. -/
theorem errors_not_surfaced :
    (statusHandler "2024-01-01".toList isoJs ⟨true, true, sampleLog⟩
        initialState).2.recentActivity =
      [{ timestamp := some "2024-01-01 10:00:00Z", type := "Event Processing"
         status := "SUCCESS", details := "Processed 3 events" },
       { timestamp := some "2024-01-01 10:10:00Z", type := "Event Processing"
         status := "SUCCESS", details := "Processed 7 events" }] ∧
    ((statusHandler "2024-01-01".toList isoJs ⟨true, true, sampleLog⟩
        initialState).2.recentActivity.all
      (fun a => a.status == "SUCCESS")) = true ∧
    (runHandler initialState SpawnOutcome.ok "t").reply =
      { httpStatus := 200, success := true, message := "Integration started" } := by
  exact ⟨by decide, by decide, rfl⟩

theorem foldl_filter_map_sum {α : Type} (p : α → Bool) (f : α → Nat)
    (l : List α) (acc : Nat) :
    l.foldl (fun a x => if p x then a + f x else a) acc =
      acc + ((l.filter p).map f).sum := by
  induction l generalizing acc with
  | nil => simp
  | cons x xs ih =>
    by_cases hx : p x = true
    · rw [List.foldl_cons, if_pos hx, List.filter_cons_of_pos hx,
        List.map_cons, List.sum_cons, ih]
      omega
    · rw [List.foldl_cons, if_neg hx, List.filter_cons_of_neg hx, ih]

theorem filter_and_comm {α : Type} (p q : α → Bool) (l : List α) :
    l.filter (fun a => p a && q a) = (l.filter p).filter q := by
  induction l with
  | nil => rfl
  | cons x xs ih =>
    by_cases hp : p x <;> by_cases hq : q x <;>
      simp [List.filter_cons, hp, hq, ih]

theorem updateStatsFromLogs_stats (today : List Char)
    (isoOf : List Char → Option String) (fs : FS) (s : ServerState)
    (hd : fs.logDirExists = true) (hf : fs.logFileExists = true) :
    (updateStatsFromLogs today isoOf fs s).stats =
      { totalEvents := ((eventLinesOf fs.logContent).map lineCount).sum
        eventsToday := (((eventLinesOf fs.logContent).filter
          (fun line => containsSeq today line)).map lineCount).sum
        lastBatchSize :=
          match (eventLinesOf fs.logContent).getLast? with
          | some lastLine => lineCount lastLine
          | none => s.stats.lastBatchSize } := by
  simp only [updateStatsFromLogs, hd, hf, Bool.not_true, Bool.false_eq_true,
    if_false, eventLinesOf]

/-- C8: when the log directory and today's log file both exist,
`updateStatsFromLogs` sets `stats.totalEvents` to the sum of the parsed
counts over all lines containing `Successfully processed`,
`stats.eventsToday` to the same sum restricted to lines that also contain
today's date string, and `stats.lastBatchSize` to the parsed count of the
last such line (`lineCount` yields `0` when the `processed N events`
pattern is absent), keeping its old value only when no line matches. -/
theorem stats_computed_from_logs (today : List Char)
    (isoOf : List Char → Option String) (fs : FS) (s : ServerState)
    (hd : fs.logDirExists = true) (hf : fs.logFileExists = true) :
    (updateStatsFromLogs today isoOf fs s).stats.totalEvents =
      (splitLines fs.logContent).foldl
        (fun acc l => if containsSeq "Successfully processed".toList l
          then acc + lineCount l else acc) 0 ∧
    (updateStatsFromLogs today isoOf fs s).stats.eventsToday =
      (splitLines fs.logContent).foldl
        (fun acc l => if containsSeq "Successfully processed".toList l &&
            containsSeq today l then acc + lineCount l else acc) 0 ∧
    (∀ l, (eventLinesOf fs.logContent).getLast? = some l →
      (updateStatsFromLogs today isoOf fs s).stats.lastBatchSize = lineCount l) ∧
    ((eventLinesOf fs.logContent).getLast? = none →
      (updateStatsFromLogs today isoOf fs s).stats.lastBatchSize =
        s.stats.lastBatchSize) := by
  have hs := updateStatsFromLogs_stats today isoOf fs s hd hf
  refine ⟨?_, ?_, ?_, ?_⟩
  · rw [hs]
    show ((eventLinesOf fs.logContent).map lineCount).sum = _
    rw [foldl_filter_map_sum, Nat.zero_add]
    rfl
  · rw [hs]
    show (((eventLinesOf fs.logContent).filter
      (fun line => containsSeq today line)).map lineCount).sum = _
    rw [foldl_filter_map_sum, filter_and_comm, Nat.zero_add]
    rfl
  · intro l hl
    rw [hs]
    show (match (eventLinesOf fs.logContent).getLast? with
      | some lastLine => lineCount lastLine
      | none => s.stats.lastBatchSize) = lineCount l
    rw [hl]
  · intro hl
    rw [hs]
    show (match (eventLinesOf fs.logContent).getLast? with
      | some lastLine => lineCount lastLine
      | none => s.stats.lastBatchSize) = s.stats.lastBatchSize
    rw [hl]

theorem stats_computed_from_logs_witness :
    (⟨true, true, sampleLog⟩ : FS).logDirExists = true ∧
    (⟨true, true, sampleLog⟩ : FS).logFileExists = true ∧
    ((updateStatsFromLogs "2024-01-01".toList isoJs
          ⟨true, true, sampleLog⟩ initialState).stats.totalEvents =
      (splitLines sampleLog).foldl
        (fun acc l => if containsSeq "Successfully processed".toList l
          then acc + lineCount l else acc) 0 ∧
    (updateStatsFromLogs "2024-01-01".toList isoJs
          ⟨true, true, sampleLog⟩ initialState).stats.eventsToday =
      (splitLines sampleLog).foldl
        (fun acc l => if containsSeq "Successfully processed".toList l &&
            containsSeq "2024-01-01".toList l then acc + lineCount l else acc)
        0 ∧
    (∀ l, (eventLinesOf sampleLog).getLast? = some l →
      (updateStatsFromLogs "2024-01-01".toList isoJs
        ⟨true, true, sampleLog⟩ initialState).stats.lastBatchSize =
          lineCount l) ∧
    ((eventLinesOf sampleLog).getLast? = none →
      (updateStatsFromLogs "2024-01-01".toList isoJs
        ⟨true, true, sampleLog⟩ initialState).stats.lastBatchSize =
          initialState.stats.lastBatchSize)) :=
  ⟨rfl, rfl, stats_computed_from_logs "2024-01-01".toList isoJs
    ⟨true, true, sampleLog⟩ initialState rfl rfl⟩

theorem updateStatsFromLogs_skip (today : List Char)
    (isoOf : List Char → Option String) (fs : FS) (s : ServerState)
    (h : fs.logDirExists = false ∨ fs.logFileExists = false) :
    updateStatsFromLogs today isoOf fs s = s := by
  unfold updateStatsFromLogs
  rcases h with h | h <;> simp [h]

theorem updateStatsFromLogs_activity_ok (today : List Char)
    (isoOf : List Char → Option String) (fs : FS) (s : ServerState)
    (acts : List Activity)
    (hd : fs.logDirExists = true) (hf : fs.logFileExists = true)
    (hm : mapThrow (mkActivity isoOf) (lastN 10 (eventLinesOf fs.logContent))
      = some acts) :
    (updateStatsFromLogs today isoOf fs s).recentActivity =
      acts.filter (fun a => a.timestamp.isSome) := by
  simp only [updateStatsFromLogs, hd, hf, Bool.not_true, Bool.false_eq_true,
    if_false]
  simp only [eventLinesOf] at hm
  rw [hm]

theorem updateStatsFromLogs_activity_throw (today : List Char)
    (isoOf : List Char → Option String) (fs : FS) (s : ServerState)
    (hd : fs.logDirExists = true) (hf : fs.logFileExists = true)
    (hm : mapThrow (mkActivity isoOf) (lastN 10 (eventLinesOf fs.logContent))
      = none) :
    (updateStatsFromLogs today isoOf fs s).recentActivity =
      s.recentActivity := by
  simp only [updateStatsFromLogs, hd, hf, Bool.not_true, Bool.false_eq_true,
    if_false]
  simp only [eventLinesOf] at hm
  rw [hm]

theorem mapThrow_length {α β : Type} (f : α → Option β) (xs : List α)
    (bs : List β) (h : mapThrow f xs = some bs) : bs.length = xs.length := by
  induction xs generalizing bs with
  | nil =>
    simp only [mapThrow] at h
    cases h
    rfl
  | cons x xs ih =>
    simp only [mapThrow] at h
    cases hf : f x with
    | none => rw [hf] at h; exact Option.noConfusion h
    | some b =>
      rw [hf] at h
      obtain ⟨bs', hm, hb⟩ := Option.map_eq_some'.mp h
      cases hb
      simp [ih bs' hm]

theorem mapThrow_mem {α β : Type} (f : α → Option β) (xs : List α)
    (bs : List β) (h : mapThrow f xs = some bs) (b : β) (hb : b ∈ bs) :
    ∃ x ∈ xs, f x = some b := by
  induction xs generalizing bs with
  | nil =>
    simp only [mapThrow] at h
    cases h
    cases hb
  | cons x xs ih =>
    simp only [mapThrow] at h
    cases hf : f x with
    | none => rw [hf] at h; exact Option.noConfusion h
    | some b0 =>
      rw [hf] at h
      obtain ⟨bs', hm, hbs⟩ := Option.map_eq_some'.mp h
      cases hbs
      rcases List.mem_cons.mp hb with rfl | hb'
      · exact ⟨x, List.mem_cons_self x xs, hf⟩
      · obtain ⟨x', hx', hf'⟩ := ih bs' hm hb'
        exact ⟨x', List.mem_cons_of_mem x hx', hf'⟩

theorem mkActivity_fields (isoOf : List Char → Option String)
    (line : List Char) (a : Activity) (h : mkActivity isoOf line = some a) :
    a.status = "SUCCESS" ∧ a.type = "Event Processing" := by
  cases hts : matchTimestamp line with
  | some ts =>
    simp only [mkActivity, hts] at h
    cases hiso : isoOf ts with
    | none => simp [hiso] at h
    | some iso =>
      simp only [hiso, Option.map_some', Option.some.injEq] at h
      subst h
      exact ⟨rfl, rfl⟩
  | none =>
    simp only [mkActivity, hts, Option.some.injEq] at h
    subst h
    exact ⟨rfl, rfl⟩

theorem lastN_length_le {α : Type} (n : Nat) (l : List α) :
    (lastN n l).length ≤ n := by
  simp only [lastN, List.length_drop]
  omega

/-- Invariant claimed for `state.recentActivity`: at most 10 entries, each
a SUCCESS event-processing entry with a present timestamp. -/
def ActivityInv (s : ServerState) : Prop :=
  s.recentActivity.length ≤ 10 ∧
  ∀ a ∈ s.recentActivity,
    a.status = "SUCCESS" ∧ a.type = "Event Processing" ∧
      a.timestamp.isSome = true

/-- Log content whose single matching line carries a timestamp that
matches the shape regex but has the out-of-range month 13, so
`new Date(...).toISOString()` throws on it. -/
def invalidLog : List Char :=
  "2024-13-01 10:00:00 INFO Successfully processed 5 events".toList

/-- An activity entry from an earlier log: its timestamp names the year
1999, which occurs in no line of `invalidLog`. -/
def staleEntry : Activity :=
  { timestamp := some "1999-01-01 00:00:00Z"
    type := "Event Processing"
    status := "SUCCESS"
    details := "Processed 99 events" }

/-- A state carrying the earlier entry, as left behind by a previous
status query against an older log file. -/
def staleState : ServerState :=
  { initialState with recentActivity := [staleEntry] }

/-- C9 counterexample: on a log whose only matching line carries the
shape-valid but calendar-invalid timestamp `2024-13-01 10:00:00`, the
`toISOString` throw inside the map is caught at lines 72-74 after the
stats assignments: the stats are rewritten to this log's count (5), yet
`recentActivity` keeps its stale earlier entry — one naming year 1999,
which occurs in no line of the current log — so the entries after the
call are not drawn from the current log file's matching lines. -/
theorem recentActivity_stale_cex :
    (updateStatsFromLogs "2024-13-01".toList isoJs ⟨true, true, invalidLog⟩
        staleState).recentActivity = [staleEntry] ∧
    (updateStatsFromLogs "2024-13-01".toList isoJs ⟨true, true, invalidLog⟩
        staleState).stats.totalEvents = 5 ∧
    ((splitLines invalidLog).all
      (fun l => !containsSeq "1999".toList l)) = true ∧
    containsSeq "1999".toList (staleEntry.timestamp.getD "").toList = true := by
  exact ⟨by decide, by decide, by decide, by decide⟩

/-- C9 amended: every call to `updateStatsFromLogs` preserves the
recent-activity invariant (at most 10 entries, each with status
`SUCCESS`, type `Event Processing` and a non-null timestamp, holding from
the empty initial list on); when the log file is read and every matched
timestamp converts without throwing, the entries are, in order, a
sub-sequence of the entries built from the last 10 matching lines of that
log; when a conversion throws, the caught exception leaves
`recentActivity` at its previous value. -/
theorem recentActivity_invariant (today : List Char)
    (isoOf : List Char → Option String) (fs : FS) (s : ServerState)
    (h : ActivityInv s) :
    ActivityInv (updateStatsFromLogs today isoOf fs s) ∧
    (∀ acts, fs.logDirExists = true → fs.logFileExists = true →
      mapThrow (mkActivity isoOf) (lastN 10 (eventLinesOf fs.logContent))
        = some acts →
      List.Sublist (updateStatsFromLogs today isoOf fs s).recentActivity
        acts) ∧
    (fs.logDirExists = true → fs.logFileExists = true →
      mapThrow (mkActivity isoOf) (lastN 10 (eventLinesOf fs.logContent))
        = none →
      (updateStatsFromLogs today isoOf fs s).recentActivity
        = s.recentActivity) := by
  by_cases hd : fs.logDirExists = true
  · by_cases hf : fs.logFileExists = true
    · cases hmt : mapThrow (mkActivity isoOf)
        (lastN 10 (eventLinesOf fs.logContent)) with
      | some acts =>
        have hact :=
          updateStatsFromLogs_activity_ok today isoOf fs s acts hd hf hmt
        refine ⟨⟨?_, ?_⟩, ?_, ?_⟩
        · rw [hact]
          calc (acts.filter (fun a => a.timestamp.isSome)).length
              ≤ acts.length := List.length_filter_le _ _
            _ = (lastN 10 (eventLinesOf fs.logContent)).length :=
              mapThrow_length _ _ _ hmt
            _ ≤ 10 := lastN_length_le _ _
        · intro a ha
          rw [hact] at ha
          have hmem := List.mem_of_mem_filter ha
          have hsome := List.of_mem_filter ha
          obtain ⟨line, _, hline⟩ := mapThrow_mem _ _ _ hmt a hmem
          obtain ⟨h1, h2⟩ := mkActivity_fields isoOf line a hline
          exact ⟨h1, h2, by simpa using hsome⟩
        · intro acts' _ _ hmt'
          cases hmt'
          rw [hact]
          exact List.filter_sublist _
        · intro _ _ hnone
          exact Option.noConfusion hnone
      | none =>
        have hact :=
          updateStatsFromLogs_activity_throw today isoOf fs s hd hf hmt
        refine ⟨⟨?_, ?_⟩, ?_, ?_⟩
        · rw [hact]
          exact h.1
        · rw [hact]
          exact h.2
        · intro acts' _ _ hmt'
          exact Option.noConfusion hmt'
        · intro _ _ _
          exact hact
    · have hskip := updateStatsFromLogs_skip today isoOf fs s
        (Or.inr (by simpa using hf))
      rw [hskip]
      exact ⟨h, fun _ _ hf2 _ => absurd hf2 hf, fun _ hf2 _ => absurd hf2 hf⟩
  · have hskip := updateStatsFromLogs_skip today isoOf fs s
      (Or.inl (by simpa using hd))
    rw [hskip]
    exact ⟨h, fun _ hd2 _ _ => absurd hd2 hd, fun hd2 _ _ => absurd hd2 hd⟩

theorem recentActivity_invariant_witness :
    ActivityInv initialState ∧
    (ActivityInv (updateStatsFromLogs "2024-01-01".toList isoJs
        ⟨true, true, sampleLog⟩ initialState) ∧
      (∀ acts, (⟨true, true, sampleLog⟩ : FS).logDirExists = true →
        (⟨true, true, sampleLog⟩ : FS).logFileExists = true →
        mapThrow (mkActivity isoJs) (lastN 10 (eventLinesOf sampleLog))
          = some acts →
        List.Sublist (updateStatsFromLogs "2024-01-01".toList isoJs
            ⟨true, true, sampleLog⟩ initialState).recentActivity acts) ∧
      ((⟨true, true, sampleLog⟩ : FS).logDirExists = true →
        (⟨true, true, sampleLog⟩ : FS).logFileExists = true →
        mapThrow (mkActivity isoJs) (lastN 10 (eventLinesOf sampleLog))
          = none →
        (updateStatsFromLogs "2024-01-01".toList isoJs
            ⟨true, true, sampleLog⟩ initialState).recentActivity
          = initialState.recentActivity)) :=
  have h0 : ActivityInv initialState := by
    constructor
    · decide
    · intro a ha
      simp [initialState] at ha
  ⟨h0, recentActivity_invariant "2024-01-01".toList isoJs
    ⟨true, true, sampleLog⟩ initialState h0⟩

/-- C10: when the log directory or today's log file is missing,
`updateStatsFromLogs` leaves the whole state untouched, and consequently
a status query on the fresh initial state reports the zero statistics, an
empty activity list and the IDLE status. -/
theorem missing_logs_keep_state (today : List Char)
    (isoOf : List Char → Option String) (fs : FS) (s : ServerState)
    (h : fs.logDirExists = false ∨ fs.logFileExists = false) :
    updateStatsFromLogs today isoOf fs s = s ∧
    (statusHandler today isoOf fs initialState).2.stats =
      { totalEvents := 0, eventsToday := 0, lastBatchSize := 0 } ∧
    (statusHandler today isoOf fs initialState).2.recentActivity = [] ∧
    (statusHandler today isoOf fs initialState).2.status = "IDLE" := by
  have h1 := updateStatsFromLogs_skip today isoOf fs s h
  have h2 := updateStatsFromLogs_skip today isoOf fs initialState h
  refine ⟨h1, ?_, ?_, ?_⟩
  · show (updateStatsFromLogs today isoOf fs initialState).stats = _
    rw [h2]
    rfl
  · show (updateStatsFromLogs today isoOf fs initialState).recentActivity = _
    rw [h2]
    rfl
  · show (if (updateStatsFromLogs today isoOf fs initialState).isRunning
      then "ACTIVE" else "IDLE") = _
    rw [h2]
    rfl

theorem missing_logs_keep_state_witness :
    ((⟨false, true, sampleLog⟩ : FS).logDirExists = false ∨
      (⟨false, true, sampleLog⟩ : FS).logFileExists = false) ∧
    (updateStatsFromLogs "2024-01-01".toList isoJs
        ⟨false, true, sampleLog⟩ initialState = initialState ∧
      (statusHandler "2024-01-01".toList isoJs ⟨false, true, sampleLog⟩
          initialState).2.stats =
        { totalEvents := 0, eventsToday := 0, lastBatchSize := 0 } ∧
      (statusHandler "2024-01-01".toList isoJs ⟨false, true, sampleLog⟩
          initialState).2.recentActivity = [] ∧
      (statusHandler "2024-01-01".toList isoJs ⟨false, true, sampleLog⟩
          initialState).2.status = "IDLE") :=
  ⟨Or.inl rfl, missing_logs_keep_state "2024-01-01".toList isoJs
    ⟨false, true, sampleLog⟩ initialState (Or.inl rfl)⟩

end BoxChronicle
